import Mathlib

/-!
Shallow embedding of the boot-image layout engine of abootimg
(src/abootimg.c, src/bootimg.h) and proofs about it.

Files are modelled as total byte maps `Nat → Nat`; a stream is a pair of a
byte map and a cursor.  All C `unsigned` quantities are modelled as `Nat`;
the one place where 32-bit wrap-around matters (the writer's padding
subtraction) uses an explicit modular subtraction `u32sub`.
-/

namespace Abootimg

/-- 2^32, the modulus of the C `unsigned` arithmetic. -/
def u32mod : Nat := 4294967296

/-- C unsigned 32-bit subtraction `a - b` (wraps modulo 2^32). -/
def u32sub (a b : Nat) : Nat := (a % u32mod + u32mod - b % u32mod) % u32mod

/-- Read `len` bytes of a C buffer modelled as a list (indices past the end
give unspecified memory, modelled as 0).  This is what `fwrite(buf, len, 1)`
emits and what `fread` deposits. -/
def cbytes (buf : List Nat) (len : Nat) : List Nat :=
  (List.range len).map (fun i => buf.getD i 0)

/-- Read `len` bytes from a file at offset `off` (models `fseek`+`fread`). -/
def readBytes (f : Nat → Nat) (off len : Nat) : List Nat :=
  (List.range len).map (fun i => f (off + i))

/-- Overwrite the bytes of a file starting at `off` with `data`. -/
def writeAt (f : Nat → Nat) (off : Nat) (data : List Nat) : Nat → Nat :=
  fun pos => if off ≤ pos ∧ pos < off + data.length then data.getD (pos - off) 0 else f pos

/-- A stdio stream: the file contents and the current cursor. -/
abbrev Stream' := (Nat → Nat) × Nat

/-- `fwrite`: write `data` at the cursor and advance it. -/
def fwrite (fc : Stream') (data : List Nat) : Stream' :=
  (writeAt fc.1 fc.2 data, fc.2 + data.length)

/-- `fseek(..., off, SEEK_SET)`. -/
def fseek (fc : Stream') (off : Nat) : Stream' := (fc.1, off)

/-- Little-endian serialization of a 32-bit word (as on the supported
little-endian targets). -/
def le32 (x : Nat) : List Nat := [x % 256, x / 256 % 256, x / 65536 % 256, x / 16777216 % 256]

/-- Little-endian 32-bit word read from a byte buffer at offset `off`
(models casting a buffer to a struct field). -/
def le32At (l : List Nat) (off : Nat) : Nat :=
  l.getD off 0 + 256 * l.getD (off + 1) 0 + 65536 * l.getD (off + 2) 0 +
    16777216 * l.getD (off + 3) 0

/-- Page count of a section: `(size + page_size - 1) / page_size`, the
expression used throughout `abootimg.c`. -/
def pages (size ps : Nat) : Nat := (size + ps - 1) / ps

/-- `boot_img_hdr` from `src/bootimg.h`.  Fixed-size byte arrays are lists;
`sizeof(boot_img_hdr) = 8 + 9*4 + 4 + 16 + 512 + 32 = 608`. -/
structure BootImgHdr where
  magic : List Nat
  kernel_size : Nat
  kernel_addr : Nat
  ramdisk_size : Nat
  ramdisk_addr : Nat
  second_size : Nat
  second_addr : Nat
  tags_addr : Nat
  page_size : Nat
  dtbs_size : Nat
  unused0 : Nat
  name : List Nat
  cmdline : List Nat
  id : List Nat
  deriving DecidableEq

/-- `sizeof(boot_img_hdr)`. -/
def hdrSize : Nat := 608

/-- The bytes of `BOOT_MAGIC` = "ANDROID!". -/
def androidMagic : List Nat := [65, 78, 68, 82, 79, 73, 68, 33]

/-- The in-memory (wire) bytes of a `boot_img_hdr`, as emitted by
`fwrite(&img->header, sizeof(boot_img_hdr), 1, ...)`. -/
def serializeHdr (h : BootImgHdr) : List Nat :=
  cbytes h.magic 8 ++ le32 h.kernel_size ++ le32 h.kernel_addr ++
    le32 h.ramdisk_size ++ le32 h.ramdisk_addr ++ le32 h.second_size ++
    le32 h.second_addr ++ le32 h.tags_addr ++ le32 h.page_size ++
    le32 h.dtbs_size ++ le32 h.unused0 ++ cbytes h.name 16 ++
    cbytes h.cmdline 512 ++
    (le32 (h.id.getD 0 0) ++ le32 (h.id.getD 1 0) ++ le32 (h.id.getD 2 0) ++
      le32 (h.id.getD 3 0) ++ le32 (h.id.getD 4 0) ++ le32 (h.id.getD 5 0) ++
      le32 (h.id.getD 6 0) ++ le32 (h.id.getD 7 0))

/-- The page counts and section offsets of the boot image layout, as computed
in `update_images` (lines 563-570 and 800-805) and `write_bootimg`. -/
structure Layout where
  n : Nat
  m : Nat
  o : Nat
  p : Nat
  kernel_off : Nat
  ramdisk_off : Nat
  second_off : Nat
  dtbs_off : Nat
  signature_off : Nat
  total_size : Nat
  deriving DecidableEq

/-- The Layout Calculator: the offset/size arithmetic of `abootimg.c`.
`n`, `m`, `o`, `p` are the kernel/ramdisk/second/dtbs page counts; the header
occupies one page, the signature one page after all sections. -/
def layout (ps k r s d : Nat) : Layout :=
  let n := pages k ps
  let m := pages r ps
  let o := pages s ps
  let p := pages d ps
  { n := n, m := m, o := o, p := p
    kernel_off := ps
    ramdisk_off := (1 + n) * ps
    second_off := (1 + n + m) * ps
    dtbs_off := (1 + n + m + o) * ps
    signature_off := (1 + n + m + o + p) * ps
    total_size := (1 + n + m + o + p + 1) * ps }

section PagesLemmas

/-- A section always fits in its pages: `size ≤ pages size ps * ps`. -/
theorem le_pages_mul (ps : Nat) (hps : 0 < ps) (k : Nat) : k ≤ pages k ps * ps := by
  unfold pages
  have hdm := Nat.div_add_mod (k + ps - 1) ps
  have hlt : (k + ps - 1) % ps < ps := Nat.mod_lt _ hps
  rw [Nat.mul_comm]
  omega

/-- If `k` fits in `j` pages then the page count is at most `j`. -/
theorem pages_le_of_le_mul (ps : Nat) (hps : 0 < ps) {k j : Nat} (h : k ≤ j * ps) :
    pages k ps ≤ j := by
  unfold pages
  have h2 : k + ps - 1 < (j + 1) * ps := by
    have : (j + 1) * ps = j * ps + ps := by ring
    omega
  have := (Nat.div_lt_iff_lt_mul hps).2 h2
  omega

/-- The code's page count `(k + ps - 1) / ps` is the mathematical ceiling
of `k / ps`. -/
theorem pages_eq_ceil (ps k : Nat) (hps : 0 < ps) :
    pages k ps = ⌈(k : ℚ) / (ps : ℚ)⌉₊ := by
  have hpsQ : (0 : ℚ) < (ps : ℚ) := by exact_mod_cast hps
  apply le_antisymm
  · apply pages_le_of_le_mul ps hps
    have h1 : (k : ℚ) / ps ≤ (⌈(k : ℚ) / (ps : ℚ)⌉₊ : ℚ) := Nat.le_ceil _
    rw [div_le_iff₀ hpsQ] at h1
    exact_mod_cast h1
  · rw [Nat.ceil_le, div_le_iff₀ hpsQ]
    exact_mod_cast le_pages_mul ps hps k

/-- The page count of the empty section is zero. -/
theorem pages_zero (ps : Nat) : pages 0 ps = 0 := by
  unfold pages
  rcases Nat.eq_zero_or_pos ps with h | h
  · subst h; rfl
  · exact Nat.div_eq_of_lt (by omega)

/-- For a multiple of the page size, the page count is the exact quotient. -/
theorem pages_of_dvd (ps : Nat) (hps : 0 < ps) {k : Nat} (h : k % ps = 0) :
    pages k ps = k / ps := by
  obtain ⟨a, rfl⟩ := Nat.dvd_of_mod_eq_zero h
  unfold pages
  have h1 : ps * a + ps - 1 = (ps - 1) + a * ps := by
    rw [Nat.mul_comm ps a]; omega
  rw [h1, Nat.add_mul_div_right _ _ hps, Nat.div_eq_of_lt (by omega),
    Nat.mul_div_cancel_left _ hps]
  omega

end PagesLemmas

/-- Claim C2: the layout function computes, for every positive page size,
page counts `⌈size / page_size⌉` (0 for an absent section), the accumulated
offsets `kernel_off = page_size`, `ramdisk_off = (1+n)·page_size`,
`second_off = (1+n+m)·page_size`, `dtbs_off = (1+n+m+o)·page_size`,
`signature_off = (1+n+m+o+p)·page_size`, `total_size = signature_off +
page_size`; and on page_size 2048, kernel 9000, ramdisk 500 it yields n = 5,
kernel_off = 2048, ramdisk_off = 12288, total_size = 16384. -/
theorem C2_layout_determinism (ps k r s d : Nat) (hps : 0 < ps) :
    (layout ps k r s d).n = ⌈(k : ℚ) / (ps : ℚ)⌉₊ ∧
    (layout ps k r s d).m = ⌈(r : ℚ) / (ps : ℚ)⌉₊ ∧
    (layout ps k r s d).o = ⌈(s : ℚ) / (ps : ℚ)⌉₊ ∧
    (layout ps k r s d).p = ⌈(d : ℚ) / (ps : ℚ)⌉₊ ∧
    (k = 0 → (layout ps k r s d).n = 0) ∧
    (r = 0 → (layout ps k r s d).m = 0) ∧
    (s = 0 → (layout ps k r s d).o = 0) ∧
    (d = 0 → (layout ps k r s d).p = 0) ∧
    (layout ps k r s d).kernel_off = ps ∧
    (layout ps k r s d).ramdisk_off = (1 + (layout ps k r s d).n) * ps ∧
    (layout ps k r s d).second_off = (1 + (layout ps k r s d).n + (layout ps k r s d).m) * ps ∧
    (layout ps k r s d).dtbs_off =
      (1 + (layout ps k r s d).n + (layout ps k r s d).m + (layout ps k r s d).o) * ps ∧
    (layout ps k r s d).signature_off =
      (1 + (layout ps k r s d).n + (layout ps k r s d).m + (layout ps k r s d).o +
        (layout ps k r s d).p) * ps ∧
    (layout ps k r s d).total_size = (layout ps k r s d).signature_off + ps ∧
    (layout 2048 9000 500 0 0).n = 5 ∧
    (layout 2048 9000 500 0 0).kernel_off = 2048 ∧
    (layout 2048 9000 500 0 0).ramdisk_off = 12288 ∧
    (layout 2048 9000 500 0 0).total_size = 16384 := by
  refine ⟨pages_eq_ceil ps k hps, pages_eq_ceil ps r hps, pages_eq_ceil ps s hps,
    pages_eq_ceil ps d hps, ?_, ?_, ?_, ?_, rfl, rfl, rfl, rfl, rfl, ?_, by decide, by decide,
    by decide, by decide⟩
  · rintro rfl; exact pages_zero ps
  · rintro rfl; exact pages_zero ps
  · rintro rfl; exact pages_zero ps
  · rintro rfl; exact pages_zero ps
  · show (1 + _ + _ + _ + _ + 1) * ps = (1 + _ + _ + _ + _) * ps + ps
    ring

/-- Witness for C2 at page_size 2048, kernel 9000, ramdisk 500. -/
theorem C2_layout_determinism_witness :
    (layout 2048 9000 500 0 0).n = ⌈(9000 : ℚ) / (2048 : ℚ)⌉₊ ∧
    (layout 2048 9000 500 0 0).ramdisk_off = (1 + (layout 2048 9000 500 0 0).n) * 2048 ∧
    (layout 2048 9000 500 0 0).total_size = (layout 2048 9000 500 0 0).signature_off + 2048 := by
  obtain ⟨h1, -, -, -, -, -, -, -, -, h10, -, -, -, h14, -⟩ :=
    C2_layout_determinism 2048 9000 500 0 0 (by decide)
  exact ⟨h1, h10, h14⟩

/-- Length-preserving overwrite of a C buffer (a `memcpy` into the middle of
an owned buffer). -/
def listWriteAt (l : List Nat) (off : Nat) (data : List Nat) : List Nat :=
  (List.range l.length).map
    (fun i => if off ≤ i ∧ i < off + data.length then data.getD (i - off) 0 else l.getD i 0)

/-- The 17 bytes `memcpy`-ed into the signature buffer:
"SEANDROIDENFORCE" followed by its terminating NUL. -/
def sigMarker : List Nat :=
  [83, 69, 65, 78, 68, 82, 79, 73, 68, 69, 78, 70, 79, 82, 67, 69, 0]

/-- `num_entries` of a DTB table buffer (`dtbs_t` field at byte offset 8). -/
def dtbNumEntries (d : List Nat) : Nat := le32At d 8

/-- `dt_entry_t` number `i` starts at byte `12 + 32*i`
(`sizeof(dtbs_t) = 12`, `sizeof(dt_entry_t) = 32`); its `offset` field is at
byte 20 and its `dtb_size` field at byte 24 of the entry. -/
def dtbEntryOffset (d : List Nat) (i : Nat) : Nat := le32At d (12 + 32 * i + 20)

/-- The `dtb_size` field of `dt_entry_t` number `i` of a DTB table buffer. -/
def dtbEntrySize (d : List Nat) (i : Nat) : Nat := le32At d (12 + 32 * i + 24)

/-- The entry-rewriting loop of the dtbs replacement path of `update_images`
(lines 717-757): given the page size and the byte lengths of the sub-blobs,
returns the rewritten (offset, dtb_size) pair for every entry together with
the final page counter `p`; the accumulator starts at `p = 1` (the table
header page). -/
def dtbRewriteAux (ps : Nat) : Nat → List Nat → List (Nat × Nat) × Nat
  | p, [] => ([], p)
  | p, s :: rest =>
      let res := dtbRewriteAux ps (p + pages s ps) rest
      ((p * ps, s) :: res.1, res.2)

/-- The DTB table rewrite: entries and final page counter, starting from
`p = 1`.  `update_images` stores `(dtbRewrite ps sizes).2 * ps` into
`header.dtbs_size`. -/
def dtbRewrite (ps : Nat) (sizes : List Nat) : List (Nat × Nat) × Nat :=
  dtbRewriteAux ps 1 sizes

/-- Write the rewritten (offset, dtb_size) fields back into the DTB table
buffer, entry `i` at bytes `12 + 32*i + 20` and `12 + 32*i + 24`. -/
def dtbApplyEntriesAux (buf : List Nat) (i : Nat) : List (Nat × Nat) → List Nat
  | [] => buf
  | e :: rest =>
      dtbApplyEntriesAux
        (listWriteAt (listWriteAt buf (12 + 32 * i + 20) (le32 e.1)) (12 + 32 * i + 24)
          (le32 e.2))
        (i + 1) rest

/-- Apply the rewritten entries to the table buffer starting at entry 0. -/
def dtbApplyEntries (buf : List Nat) (es : List (Nat × Nat)) : List Nat :=
  dtbApplyEntriesAux buf 0 es

/-- `check_boot_img_header` (lines 320-358): returns `true` when the header
is rejected.  Note the size check compares `(1+n+m+o+p) * page_size` — the
layout without the trailing signature page — against the measured size. -/
def check_boot_img_header (imgsize : Nat) (h : BootImgHdr) : Bool :=
  if cbytes h.magic 8 ≠ androidMagic then true
  else if h.kernel_size = 0 then true
  else if h.ramdisk_size = 0 then true
  else if h.page_size = 0 then true
  else if (1 + pages h.kernel_size h.page_size + pages h.ramdisk_size h.page_size +
      pages h.second_size h.page_size + pages h.dtbs_size h.page_size) * h.page_size >
      imgsize then true
  else false

/-- The in-memory working set `t_abootimg`: measured/declared container size,
the header, and the owned section buffers (`none` = the C pointer is NULL). -/
structure ImgState where
  size : Nat
  header : BootImgHdr
  kernel : Option (List Nat)
  ramdisk : Option (List Nat)
  second : Option (List Nat)
  dtbh : Option (List Nat)
  dtbBlobs : List (List Nat)
  signature : List Nat
  deriving DecidableEq

/-- The section-loading part of `update_images` (lines 552-797).  `kf`, `rf`,
`sf` are the contents of the replacement files named on the command line
(`none` = no file named); `df` is the replacement DTB table file together
with the per-entry sub-blob files.  The copy-forward offsets `roffset`,
`soffset`, `doffset` are computed from the header sizes as of entry, i.e.
the offsets valid in the source file `f`. -/
def loadSections (f : Nat → Nat) (kf rf sf : Option (List Nat))
    (df : Option (List Nat × List (List Nat))) (st : ImgState) : ImgState :=
  let ps := st.header.page_size
  let ksize := st.header.kernel_size
  let rsize := st.header.ramdisk_size
  let ssize := st.header.second_size
  let dsize := st.header.dtbs_size
  let n := pages ksize ps
  let m := pages rsize ps
  let o := pages ssize ps
  let roffset := (1 + n) * ps
  let soffset := (1 + n + m) * ps
  let doffset := (1 + n + m + o) * ps
  let st1 := match kf with
    | some k => { st with header := { st.header with kernel_size := k.length }, kernel := some k }
    | none => st
  let st2 := match rf with
    | some r =>
        { st1 with header := { st1.header with ramdisk_size := r.length }, ramdisk := some r }
    | none =>
        if st1.kernel.isSome then { st1 with ramdisk := some (readBytes f roffset rsize) }
        else st1
  let st3 := match sf with
    | some s =>
        { st2 with header := { st2.header with second_size := s.length }, second := some s }
    | none =>
        if st2.ramdisk.isSome ∧ st2.header.second_size ≠ 0 then
          { st2 with second := some (readBytes f soffset ssize) }
        else st2
  let st4 := match df with
    | some dfb =>
        let dbuf := cbytes dfb.1 ps
        let ne := dtbNumEntries dbuf
        let sizes := (List.range ne).map (fun i => (dfb.2.getD i []).length)
        let rw := dtbRewrite ps sizes
        { st3 with header := { st3.header with dtbs_size := rw.2 * ps },
                   dtbh := some (dtbApplyEntries dbuf rw.1),
                   dtbBlobs := (List.range ne).map (fun i => dfb.2.getD i []) }
    | none =>
        if st3.header.dtbs_size ≠ 0 then
          let d := readBytes f doffset dsize
          { st3 with dtbh := some d,
                     dtbBlobs := (List.range (dtbNumEntries d)).map
                       (fun i => d.drop (dtbEntryOffset d i)) }
        else st3
  { st4 with signature := listWriteAt st4.signature 0 sigMarker }

/-- The final size check of `update_images` (lines 800-810): recompute the
total size from the final header; a size of 0 adopts the computed total,
otherwise a total exceeding the fixed size aborts (`CapacityError`), and a
fitting total leaves the fixed size unchanged. -/
def finalizeSize (st : ImgState) : Except String ImgState :=
  let ps := st.header.page_size
  let total := (1 + pages st.header.kernel_size ps + pages st.header.ramdisk_size ps +
    pages st.header.second_size ps + pages st.header.dtbs_size ps + 1) * ps
  if st.size = 0 then .ok { st with size := total }
  else if total > st.size then .error "CapacityError"
  else .ok st

/-- `update_images`: abort with a format error on a zero page size, load the
sections, then enforce the capacity of the target. -/
def update_images (f : Nat → Nat) (kf rf sf : Option (List Nat))
    (df : Option (List Nat × List (List Nat))) (st : ImgState) : Except String ImgState :=
  if st.header.page_size = 0 then .error "FormatError"
  else finalizeSize (loadSections f kf rf sf df st)

/-- Padding length written after a section of `size` bytes:
`psize - (size % psize)` in C unsigned arithmetic (lines 852, 867, 882,
916, 936). -/
def sectionPadLen (ps size : Nat) : Nat := u32sub ps (size % ps)

/-- Writer stage: header struct at offset 0 followed by
`psize - sizeof(boot_img_hdr)` zero bytes (unsigned subtraction). -/
def wHeader (h : BootImgHdr) (fc : Stream') : Stream' :=
  fwrite (fwrite (fseek fc 0) (serializeHdr h)) (List.replicate (u32sub h.page_size hdrSize) 0)

/-- Writer stage: kernel bytes (if the buffer is set) at the current cursor,
then padding. -/
def wKernel (h : BootImgHdr) (kernel : Option (List Nat)) (fc : Stream') : Stream' :=
  match kernel with
  | some k =>
      fwrite (fwrite fc (cbytes k h.kernel_size))
        (List.replicate (sectionPadLen h.page_size h.kernel_size) 0)
  | none => fc

/-- Writer stage: seek to `(1+n)*psize`, write the ramdisk buffer (if set),
then padding. -/
def wRamdisk (h : BootImgHdr) (ramdisk : Option (List Nat)) (fc : Stream') : Stream' :=
  match ramdisk with
  | some r =>
      fwrite
        (fwrite (fseek fc ((1 + pages h.kernel_size h.page_size) * h.page_size))
          (cbytes r h.ramdisk_size))
        (List.replicate (sectionPadLen h.page_size h.ramdisk_size) 0)
  | none => fc

/-- Writer stage: if `second_size` is nonzero, seek to `(1+n+m)*psize`, write
the second-stage buffer, then padding. -/
def wSecond (h : BootImgHdr) (second : Option (List Nat)) (fc : Stream') : Stream' :=
  if h.second_size ≠ 0 then
    fwrite
      (fwrite
        (fseek fc
          ((1 + pages h.kernel_size h.page_size + pages h.ramdisk_size h.page_size) *
            h.page_size))
        (cbytes (second.getD []) h.second_size))
      (List.replicate (sectionPadLen h.page_size h.second_size) 0)
  else fc

/-- The per-entry loop of the writer's dtbs block: each sub-blob is written
at the cursor (`dt_size` bytes), followed by padding only when `dt_size` is
not page-aligned (lines 907-921). -/
def writeDtbLoop (ps : Nat) : List (Nat × List Nat) → Stream' → Stream'
  | [], fc => fc
  | e :: rest, fc =>
      let fc1 := fwrite fc (cbytes e.2 e.1)
      let fc2 := if e.1 % ps > 0 then fwrite fc1 (List.replicate (sectionPadLen ps e.1) 0)
        else fc1
      writeDtbLoop ps rest fc2

/-- Writer stage: if a DTB table buffer is present, seek to `(1+n+m+o)*psize`,
write one page of table, then each sub-blob. -/
def wDtb (h : BootImgHdr) (dtbh : Option (List Nat)) (blobs : List (List Nat))
    (fc : Stream') : Stream' :=
  match dtbh with
  | some d =>
      writeDtbLoop h.page_size
        ((List.range (dtbNumEntries d)).map (fun i => (dtbEntrySize d i, blobs.getD i [])))
        (fwrite
          (fseek fc
            ((1 + pages h.kernel_size h.page_size + pages h.ramdisk_size h.page_size +
              pages h.second_size h.page_size) * h.page_size))
          (cbytes d h.page_size))
  | none => fc

/-- Writer stage: seek to `(1+n+m+o+p)*psize`, write the 255 signature bytes,
then padding. -/
def wSig (h : BootImgHdr) (sigbuf : List Nat) (fc : Stream') : Stream' :=
  fwrite
    (fwrite
      (fseek fc
        ((1 + pages h.kernel_size h.page_size + pages h.ramdisk_size h.page_size +
          pages h.second_size h.page_size + pages h.dtbs_size h.page_size) * h.page_size))
      (cbytes sigbuf 255))
    (List.replicate (sectionPadLen h.page_size 255) 0)

/-- `write_bootimg` (lines 815-944): serialize the state into the stream
(which in the update path is the source file itself), in order: header page,
kernel, ramdisk, second stage, DTB region, signature. -/
def write_bootimg (st : ImgState) (base : Nat → Nat) : Nat → Nat :=
  (wSig st.header st.signature
    (wDtb st.header st.dtbh st.dtbBlobs
      (wSecond st.header st.second
        (wRamdisk st.header st.ramdisk
          (wKernel st.header st.kernel
            (wHeader st.header (base, 0))))))).1

/-- The update command after `read_header`: load and check, then write the
image back to the stream — or, when `update_images` aborts, leave the file
untouched. -/
def update_and_write (f : Nat → Nat) (kf rf sf : Option (List Nat))
    (df : Option (List Nat × List (List Nat))) (st : ImgState) : Nat → Nat :=
  match update_images f kf rf sf df st with
  | .error _ => f
  | .ok st2 => write_bootimg st2 f

/-- `extract_kernel` (lines 1112-1140): `kernel_size` bytes at offset
`page_size`. -/
def extract_kernel (f : Nat → Nat) (h : BootImgHdr) : List Nat :=
  readBytes f h.page_size h.kernel_size

/-- `extract_ramdisk` (lines 1143-1175): `ramdisk_size` bytes at offset
`(1 + n) * page_size`. -/
def extract_ramdisk (f : Nat → Nat) (h : BootImgHdr) : List Nat :=
  readBytes f ((1 + pages h.kernel_size h.page_size) * h.page_size) h.ramdisk_size

/-- The second-stage offset used by `extract_second` (lines 1188-1189): one
combined page count over `ramdisk_size + kernel_size`. -/
def extractSecondOffset (ps k r : Nat) : Nat := (1 + (r + k + ps - 1) / ps) * ps

/-- `extract_second` (lines 1178-1214): nothing when `second_size` is 0,
otherwise `second_size` bytes at the combined-page-count offset. -/
def extract_second (f : Nat → Nat) (h : BootImgHdr) : Option (List Nat) :=
  if h.second_size = 0 then none
  else
    some (readBytes f (extractSecondOffset h.page_size h.kernel_size h.ramdisk_size)
      h.second_size)

section StreamLemmas

theorem writeAt_lt {f : Nat → Nat} {off pos : Nat} (data : List Nat) (h : pos < off) :
    writeAt f off data pos = f pos := by
  unfold writeAt
  rw [if_neg (by omega)]

theorem fwrite_fst_lt {fc : Stream'} {pos : Nat} (data : List Nat) (h : pos < fc.2) :
    (fwrite fc data).1 pos = fc.1 pos :=
  writeAt_lt data h

theorem fwrite_fst_in {fc : Stream'} {pos : Nat} (data : List Nat)
    (h1 : fc.2 ≤ pos) (h2 : pos < fc.2 + data.length) :
    (fwrite fc data).1 pos = data.getD (pos - fc.2) 0 := by
  unfold fwrite writeAt
  simp only
  rw [if_pos ⟨h1, h2⟩]

theorem fwrite_snd (fc : Stream') (data : List Nat) :
    (fwrite fc data).2 = fc.2 + data.length := rfl

theorem lt_fwrite_snd {fc : Stream'} {pos : Nat} (data : List Nat) (h : pos < fc.2) :
    pos < (fwrite fc data).2 := by
  rw [fwrite_snd]; omega

theorem fseek_fst (fc : Stream') (off : Nat) : (fseek fc off).1 = fc.1 := rfl

theorem fseek_snd (fc : Stream') (off : Nat) : (fseek fc off).2 = off := rfl

theorem cbytes_length (buf : List Nat) (len : Nat) : (cbytes buf len).length = len := by
  simp [cbytes]

theorem cbytes_getD {buf : List Nat} {len i : Nat} (h : i < len) :
    (cbytes buf len).getD i 0 = buf.getD i 0 := by
  simp [cbytes, List.getD_eq_getElem?_getD, List.getElem?_map, List.getElem?_range h]

theorem readBytes_length (f : Nat → Nat) (off len : Nat) : (readBytes f off len).length = len := by
  simp [readBytes]

theorem readBytes_getD {f : Nat → Nat} {off len i : Nat} (h : i < len) :
    (readBytes f off len).getD i 0 = f (off + i) := by
  simp [readBytes, List.getD_eq_getElem?_getD, List.getElem?_map, List.getElem?_range h]

theorem writeDtbLoop_fst_lt (ps : Nat) (l : List (Nat × List Nat)) (fc : Stream')
    {pos : Nat} (h : pos < fc.2) : (writeDtbLoop ps l fc).1 pos = fc.1 pos := by
  induction l generalizing fc with
  | nil => rfl
  | cons e rest ih =>
      simp only [writeDtbLoop]
      by_cases hc : e.1 % ps > 0
      · rw [if_pos hc, ih _ (lt_fwrite_snd _ (lt_fwrite_snd _ h)),
          fwrite_fst_lt _ (lt_fwrite_snd _ h), fwrite_fst_lt _ h]
      · rw [if_neg hc, ih _ (lt_fwrite_snd _ h), fwrite_fst_lt _ h]

end StreamLemmas

section WriterLemmas

theorem wKernel_fst_lt (h : BootImgHdr) (kop : Option (List Nat)) (fc : Stream')
    {pos : Nat} (hp : pos < fc.2) : (wKernel h kop fc).1 pos = fc.1 pos := by
  cases kop with
  | none => rfl
  | some k =>
      show (fwrite (fwrite fc _) _).1 pos = fc.1 pos
      rw [fwrite_fst_lt _ (lt_fwrite_snd _ hp), fwrite_fst_lt _ hp]

theorem wKernel_snd_ge (h : BootImgHdr) (kop : Option (List Nat)) (fc : Stream') :
    fc.2 ≤ (wKernel h kop fc).2 := by
  cases kop with
  | none => exact le_rfl
  | some k =>
      show fc.2 ≤ (fwrite (fwrite fc _) _).2
      rw [fwrite_snd, fwrite_snd]
      omega

theorem wRamdisk_fst_lt (h : BootImgHdr) (rop : Option (List Nat)) (fc : Stream')
    {pos : Nat} (hp : pos < (1 + pages h.kernel_size h.page_size) * h.page_size) :
    (wRamdisk h rop fc).1 pos = fc.1 pos := by
  cases rop with
  | none => rfl
  | some r =>
      show (fwrite (fwrite (fseek fc _) _) _).1 pos = fc.1 pos
      rw [fwrite_fst_lt _ (lt_fwrite_snd _ hp), fwrite_fst_lt _ hp, fseek_fst]

theorem wRamdisk_fst_in (h : BootImgHdr) (r : List Nat) (fc : Stream') {i : Nat}
    (hi : i < h.ramdisk_size) :
    (wRamdisk h (some r) fc).1 ((1 + pages h.kernel_size h.page_size) * h.page_size + i) =
      r.getD i 0 := by
  show (fwrite (fwrite (fseek fc _) _) _).1 _ = r.getD i 0
  have hlen : (cbytes r h.ramdisk_size).length = h.ramdisk_size := cbytes_length _ _
  unfold fwrite fseek
  simp only [writeAt, hlen, List.length_replicate]
  rw [if_neg (by omega), if_pos ⟨by omega, by omega⟩, Nat.add_sub_cancel_left]
  exact cbytes_getD hi

theorem wSecond_fst_lt (h : BootImgHdr) (sop : Option (List Nat)) (fc : Stream')
    {pos : Nat}
    (hp : pos <
      (1 + pages h.kernel_size h.page_size + pages h.ramdisk_size h.page_size) * h.page_size) :
    (wSecond h sop fc).1 pos = fc.1 pos := by
  unfold wSecond
  by_cases hs : h.second_size ≠ 0
  · rw [if_pos hs, fwrite_fst_lt _ (lt_fwrite_snd _ hp), fwrite_fst_lt _ hp, fseek_fst]
  · rw [if_neg hs]

theorem wDtb_fst_lt (h : BootImgHdr) (dop : Option (List Nat)) (blobs : List (List Nat))
    (fc : Stream') {pos : Nat}
    (hp : pos <
      (1 + pages h.kernel_size h.page_size + pages h.ramdisk_size h.page_size +
        pages h.second_size h.page_size) * h.page_size) :
    (wDtb h dop blobs fc).1 pos = fc.1 pos := by
  cases dop with
  | none => rfl
  | some d =>
      show (writeDtbLoop _ _ (fwrite (fseek fc _) _)).1 pos = fc.1 pos
      rw [writeDtbLoop_fst_lt _ _ _ (lt_fwrite_snd _ hp), fwrite_fst_lt _ hp, fseek_fst]

theorem wSig_fst_lt (h : BootImgHdr) (sg : List Nat) (fc : Stream') {pos : Nat}
    (hp : pos <
      (1 + pages h.kernel_size h.page_size + pages h.ramdisk_size h.page_size +
        pages h.second_size h.page_size + pages h.dtbs_size h.page_size) * h.page_size) :
    (wSig h sg fc).1 pos = fc.1 pos := by
  unfold wSig
  rw [fwrite_fst_lt _ (lt_fwrite_snd _ hp), fwrite_fst_lt _ hp, fseek_fst]

/-- Value of the written image inside the ramdisk region: the ramdisk buffer
byte, written at the offset computed from the final header. -/
theorem write_ramdisk_region (st : ImgState) (base : Nat → Nat) (r : List Nat)
    (hr : st.ramdisk = some r) (hps : 0 < st.header.page_size) {i : Nat}
    (hi : i < st.header.ramdisk_size) :
    write_bootimg st base
      ((1 + pages st.header.kernel_size st.header.page_size) * st.header.page_size + i) =
      r.getD i 0 := by
  have hrm : st.header.ramdisk_size ≤ pages st.header.ramdisk_size st.header.page_size *
      st.header.page_size := le_pages_mul _ hps _
  have hkey : (1 + pages st.header.kernel_size st.header.page_size +
      pages st.header.ramdisk_size st.header.page_size) * st.header.page_size =
      (1 + pages st.header.kernel_size st.header.page_size) * st.header.page_size +
      pages st.header.ramdisk_size st.header.page_size * st.header.page_size := by ring
  have hp1 : (1 + pages st.header.kernel_size st.header.page_size) * st.header.page_size + i <
      (1 + pages st.header.kernel_size st.header.page_size +
        pages st.header.ramdisk_size st.header.page_size) * st.header.page_size := by
    omega
  have hp2 : (1 + pages st.header.kernel_size st.header.page_size) * st.header.page_size + i <
      (1 + pages st.header.kernel_size st.header.page_size +
        pages st.header.ramdisk_size st.header.page_size +
        pages st.header.second_size st.header.page_size) * st.header.page_size := by
    have : (1 + pages st.header.kernel_size st.header.page_size +
        pages st.header.ramdisk_size st.header.page_size) * st.header.page_size ≤
        (1 + pages st.header.kernel_size st.header.page_size +
          pages st.header.ramdisk_size st.header.page_size +
          pages st.header.second_size st.header.page_size) * st.header.page_size :=
      Nat.mul_le_mul_right _ (by omega)
    omega
  have hp3 : (1 + pages st.header.kernel_size st.header.page_size) * st.header.page_size + i <
      (1 + pages st.header.kernel_size st.header.page_size +
        pages st.header.ramdisk_size st.header.page_size +
        pages st.header.second_size st.header.page_size +
        pages st.header.dtbs_size st.header.page_size) * st.header.page_size := by
    have : (1 + pages st.header.kernel_size st.header.page_size +
        pages st.header.ramdisk_size st.header.page_size) * st.header.page_size ≤
        (1 + pages st.header.kernel_size st.header.page_size +
          pages st.header.ramdisk_size st.header.page_size +
          pages st.header.second_size st.header.page_size +
          pages st.header.dtbs_size st.header.page_size) * st.header.page_size :=
      Nat.mul_le_mul_right _ (by omega)
    omega
  unfold write_bootimg
  rw [wSig_fst_lt _ _ _ hp3, wDtb_fst_lt _ _ _ _ hp2, wSecond_fst_lt _ _ _ hp1, hr,
    wRamdisk_fst_in _ _ _ hi]

end WriterLemmas

section UpdateLemmas

/-- In an update where only the kernel is replaced, the loader keeps the page
size and old ramdisk size, stores the new kernel size, and copy-forwards the
ramdisk from the source file at the offset computed from the old kernel
size. -/
theorem loadSections_kernel_only (f : Nat → Nat) (k : List Nat) (st : ImgState) :
    (loadSections f (some k) none none none st).header.page_size = st.header.page_size ∧
    (loadSections f (some k) none none none st).header.kernel_size = k.length ∧
    (loadSections f (some k) none none none st).header.ramdisk_size =
      st.header.ramdisk_size ∧
    (loadSections f (some k) none none none st).ramdisk =
      some (readBytes f
        ((1 + pages st.header.kernel_size st.header.page_size) * st.header.page_size)
        st.header.ramdisk_size) := by
  unfold loadSections
  simp only [Option.isSome_some, if_true]
  split_ifs <;> simp

theorem finalizeSize_ok_fields {s st : ImgState} (h : finalizeSize s = .ok st) :
    st.header = s.header ∧ st.kernel = s.kernel ∧ st.ramdisk = s.ramdisk ∧
      st.second = s.second ∧ st.dtbh = s.dtbh ∧ st.dtbBlobs = s.dtbBlobs ∧
      st.signature = s.signature := by
  simp only [finalizeSize] at h
  split_ifs at h
  · rw [Except.ok.injEq] at h
    subst h
    simp
  · rw [Except.ok.injEq] at h
    subst h
    simp

end UpdateLemmas

/-- Claim C1: copy-forward invariance for the ramdisk.  If an update replaces
only the kernel (file contents `k`), then every byte the writer places in the
output's ramdisk region — at the new offset
`(1 + ceil(new_kernel_size / page_size)) * page_size` computed from the final
header — equals the corresponding source-image byte at the old offset
`(1 + ceil(old_kernel_size / page_size)) * page_size`, for all
`ramdisk_size` bytes. -/
theorem C1_copy_forward_invariance (f : Nat → Nat) (st0 : ImgState) (k : List Nat)
    (st : ImgState) (hupd : update_images f (some k) none none none st0 = .ok st)
    {i : Nat} (hi : i < st0.header.ramdisk_size) :
    write_bootimg st f
      ((1 + pages k.length st0.header.page_size) * st0.header.page_size + i) =
      f ((1 + pages st0.header.kernel_size st0.header.page_size) * st0.header.page_size + i) := by
  unfold update_images at hupd
  by_cases hps0 : st0.header.page_size = 0
  · rw [if_pos hps0] at hupd
    exact absurd hupd (by simp)
  rw [if_neg hps0] at hupd
  obtain ⟨hh, -, hrd, -, -, -, -⟩ := finalizeSize_ok_fields hupd
  obtain ⟨hps, hks, hrs, hram⟩ := loadSections_kernel_only f k st0
  have hps' : st.header.page_size = st0.header.page_size := by rw [hh, hps]
  have hks' : st.header.kernel_size = k.length := by rw [hh, hks]
  have hrs' : st.header.ramdisk_size = st0.header.ramdisk_size := by rw [hh, hrs]
  have hram' : st.ramdisk = some (readBytes f
      ((1 + pages st0.header.kernel_size st0.header.page_size) * st0.header.page_size)
      st0.header.ramdisk_size) := by rw [hrd, hram]
  have hpos : 0 < st.header.page_size := by omega
  have hmain := write_ramdisk_region st f _ hram' hpos (i := i) (by omega)
  rw [hks', hps'] at hmain
  rw [readBytes_getD hi] at hmain
  exact hmain

instance {ε α : Type} [DecidableEq ε] [DecidableEq α] : DecidableEq (Except ε α) :=
  fun a b =>
    match a, b with
    | .error e, .error f =>
        if h : e = f then .isTrue (by subst h; rfl)
        else .isFalse (fun hc => h (by cases hc; rfl))
    | .error _, .ok _ => .isFalse (fun hc => Except.noConfusion hc)
    | .ok _, .error _ => .isFalse (fun hc => Except.noConfusion hc)
    | .ok x, .ok y =>
        if h : x = y then .isTrue (by subst h; rfl)
        else .isFalse (fun hc => h (by cases hc; rfl))

/-- Convenience constructor for concrete headers used in witness runs. -/
def mkHdr (k r s d ps : Nat) : BootImgHdr :=
  { magic := androidMagic, kernel_size := k, kernel_addr := 0, ramdisk_size := r,
    ramdisk_addr := 0, second_size := s, second_addr := 0, tags_addr := 0,
    page_size := ps, dtbs_size := d, unused0 := 0, name := [], cmdline := [], id := [] }

/-- A concrete source file whose byte at `pos` is `pos % 256`. -/
def witnessFile : Nat → Nat := fun pos => pos % 256

/-- Source image state of the C1 witness run: kernel 5 bytes, ramdisk 6
bytes, page size 8, nothing else. -/
def c1SrcState : ImgState :=
  { size := 0, header := mkHdr 5 6 0 0 8, kernel := none, ramdisk := none,
    second := none, dtbh := none, dtbBlobs := [], signature := List.replicate 255 0 }

/-- Replacement kernel of the C1 witness run: 20 bytes (larger, so the
ramdisk moves from offset 16 to offset 32). -/
def c1NewKernel : List Nat := List.replicate 20 7

/-- The state `update_images` produces in the C1 witness run. -/
def c1Result : ImgState :=
  { size := 48, header := mkHdr 20 6 0 0 8, kernel := some c1NewKernel,
    ramdisk := some (readBytes witnessFile 16 6), second := none, dtbh := none,
    dtbBlobs := [], signature := listWriteAt (List.replicate 255 0) 0 sigMarker }

set_option maxRecDepth 8000 in
/-- Witness for C1: a concrete kernel-only update run, evaluated at ramdisk
byte 3. -/
theorem C1_copy_forward_invariance_witness :
    write_bootimg c1Result witnessFile ((1 + pages 20 8) * 8 + 3) =
      witnessFile ((1 + pages 5 8) * 8 + 3) :=
  C1_copy_forward_invariance witnessFile c1SrcState c1NewKernel c1Result (by decide) (by decide)

/-- The size threshold used by `check_boot_img_header` is the layout's
signature offset, i.e. the total without the trailing signature page. -/
theorem layout_signature_off_eq (ps k r s d : Nat) :
    (layout ps k r s d).signature_off =
      (1 + pages k ps + pages r ps + pages s ps + pages d ps) * ps := rfl

/-- Counterexample to C3 as stated: a header whose layout-derived total size
including the signature page (8192) exceeds the container size (6144) is
nevertheless accepted, because the check compares `(1+n+m+o+p)*page_size`
(6144) instead. -/
theorem C3_counterexample :
    check_boot_img_header 6144 (mkHdr 2048 2048 0 0 2048) = false ∧
    (layout 2048 2048 2048 0 0).total_size = 8192 ∧ 8192 > 6144 := by decide

/-- Claim C3 amended: validation rejects exactly when the magic differs from
"ANDROID!", or kernel_size, ramdisk_size or page_size is 0, or
`(1+n+m+o+p)*page_size` — the layout total without the trailing signature
page — exceeds the measured container size. -/
theorem C3_header_validation_amended (sz : Nat) (h : BootImgHdr) :
    check_boot_img_header sz h = true ↔
      (cbytes h.magic 8 ≠ androidMagic ∨ h.kernel_size = 0 ∨ h.ramdisk_size = 0 ∨
        h.page_size = 0 ∨
        (layout h.page_size h.kernel_size h.ramdisk_size h.second_size
          h.dtbs_size).signature_off > sz) := by
  rw [layout_signature_off_eq]
  unfold check_boot_img_header
  split_ifs with h1 h2 h3 h4 h5 <;> simp_all

section C4Run

/-- Image state written in the C4 failing run: page size 1024, kernel 100
bytes of value 3, ramdisk 100 bytes of value 1, second stage 4 bytes of
value 2.  Neither kernel_size nor ramdisk_size is a page multiple. -/
def c4State : ImgState :=
  { size := 5120, header := mkHdr 100 100 4 0 1024,
    kernel := some (List.replicate 100 3), ramdisk := some (List.replicate 100 1),
    second := some (List.replicate 4 2), dtbh := none, dtbBlobs := [],
    signature := listWriteAt (List.replicate 255 0) 0 sigMarker }

set_option maxRecDepth 8000 in
/-- Claim C4 fails on the code: writing `c4State` puts the second stage at
`(1+n+m)*page_size = 3072`, but `extract_second` reads it back from the
combined-page-count offset `(1 + ceil((100+100)/1024)) * 1024 = 2048`, which
is inside the ramdisk region — the bytes read back are the ramdisk's
`1`-bytes, not the second stage's `2`-bytes. -/
theorem C4_roundtrip_bug :
    extract_second (write_bootimg c4State (fun _ => 0)) c4State.header =
      some [1, 1, 1, 1] ∧
    c4State.second = some [2, 2, 2, 2] ∧
    extractSecondOffset 1024 100 100 = 2048 ∧
    (layout 1024 100 100 4 0).second_off = 3072 := by decide

end C4Run

section C5Proofs

theorem dtbRewriteAux_snd (ps : Nat) (sizes : List Nat) : ∀ p : Nat,
    (dtbRewriteAux ps p sizes).2 = p + (sizes.map (fun s => pages s ps)).sum := by
  induction sizes with
  | nil => intro p; simp [dtbRewriteAux]
  | cons s rest ih =>
      intro p
      simp only [dtbRewriteAux, List.map_cons, List.sum_cons, ih]
      omega

theorem dtbRewriteAux_getD (ps : Nat) (sizes : List Nat) : ∀ p i, i < sizes.length →
    (dtbRewriteAux ps p sizes).1.getD i (0, 0) =
      ((p + ((sizes.take i).map (fun s => pages s ps)).sum) * ps, sizes.getD i 0) := by
  induction sizes with
  | nil => intro p i hi; simp at hi
  | cons s rest ih =>
      intro p i hi
      cases i with
      | zero => simp [dtbRewriteAux]
      | succ j =>
          have hj : j < rest.length := by simpa using hi
          simp only [dtbRewriteAux, List.getD_cons_succ, List.take_succ_cons, List.map_cons,
            List.sum_cons, ih (p + pages s ps) j hj]
          rw [Nat.add_assoc]

/-- Claim C5: after the DTB table rewrite with sub-blob byte lengths
`s_0 .. s_{N-1}`, entry `i` has offset
`(1 + sum of ceil(s_j / page_size) for j < i) * page_size` (so the first
sub-blob starts at `page_size`) and `dtb_size` exactly `s_i`, and the final
page counter times the page size — the value stored into the header's
`dtbs_size` — is `(1 + sum of all ceil(s_j / page_size)) * page_size`. -/
theorem C5_dtb_rewrite (ps : Nat) (sizes : List Nat) (hps : 0 < ps) :
    (∀ i, i < sizes.length →
      ((dtbRewrite ps sizes).1.getD i (0, 0)).1 =
        (1 + ((sizes.take i).map (fun s : Nat => ⌈(s : ℚ) / (ps : ℚ)⌉₊)).sum) * ps ∧
      ((dtbRewrite ps sizes).1.getD i (0, 0)).2 = sizes.getD i 0) ∧
    (dtbRewrite ps sizes).2 * ps =
      (1 + (sizes.map (fun s : Nat => ⌈(s : ℚ) / (ps : ℚ)⌉₊)).sum) * ps := by
  have hmap : ∀ l : List Nat,
      (l.map (fun s : Nat => ⌈(s : ℚ) / (ps : ℚ)⌉₊)).sum = (l.map (fun s => pages s ps)).sum := by
    intro l
    have hfun : (fun s : Nat => ⌈(s : ℚ) / (ps : ℚ)⌉₊) = (fun s => pages s ps) := by
      funext s
      exact (pages_eq_ceil ps s hps).symm
    rw [hfun]
  constructor
  · intro i hi
    rw [dtbRewrite, dtbRewriteAux_getD ps sizes 1 i hi, hmap]
    exact ⟨rfl, rfl⟩
  · rw [dtbRewrite, dtbRewriteAux_snd ps sizes 1, hmap]

/-- Witness for C5 at page size 8 and sub-blob sizes 5, 16, 3, entry 1. -/
theorem C5_dtb_rewrite_witness :
    ((dtbRewrite 8 [5, 16, 3]).1.getD 1 (0, 0)).1 =
      (1 + (([5, 16, 3].take 1).map (fun s : Nat => ⌈(s : ℚ) / (8 : ℚ)⌉₊)).sum) * 8 ∧
    ((dtbRewrite 8 [5, 16, 3]).1.getD 1 (0, 0)).2 = [5, 16, 3].getD 1 0 :=
  (C5_dtb_rewrite 8 [5, 16, 3] (by decide)).1 1 (by decide)

end C5Proofs

section C6Proofs

/-- Update state of the C6 counterexample: a previously fixed container size
of 16384 bytes, final sections needing a total of only 8192 bytes. -/
def c6FitState : ImgState :=
  { size := 16384, header := mkHdr 2048 2048 0 0 2048, kernel := none, ramdisk := none,
    second := none, dtbh := none, dtbBlobs := [], signature := List.replicate 255 0 }

/-- Counterexample to C6 as stated: when the computed total size (8192) fits
the previously fixed container size (16384), the size field keeps the fixed
value instead of being set to the computed total_size. -/
theorem C6_counterexample :
    (update_images (fun _ => 0) none none none none c6FitState).map ImgState.size =
      .ok 16384 ∧
    (layout 2048 2048 2048 0 0).total_size = 8192 ∧ (16384 : Nat) ≠ 8192 := by decide

/-- Claim C6 amended: after the sections are resolved the layout total is
recomputed from the final header; when the total exceeds a previously fixed
nonzero target size the run fails with CapacityError and the driver writes
nothing (the file is returned untouched); when no size was fixed (size = 0)
the computed total_size is adopted; a previously fixed size that fits is
kept unchanged (not replaced by the computed total). -/
theorem C6_capacity_enforcement_amended :
    (∀ st : ImgState,
      ((st.size ≠ 0 ∧ st.size <
          (layout st.header.page_size st.header.kernel_size st.header.ramdisk_size
            st.header.second_size st.header.dtbs_size).total_size) →
        finalizeSize st = .error "CapacityError") ∧
      (st.size = 0 →
        finalizeSize st = .ok { st with size :=
          (layout st.header.page_size st.header.kernel_size st.header.ramdisk_size
            st.header.second_size st.header.dtbs_size).total_size }) ∧
      ((st.size ≠ 0 ∧
          (layout st.header.page_size st.header.kernel_size st.header.ramdisk_size
            st.header.second_size st.header.dtbs_size).total_size ≤ st.size) →
        finalizeSize st = .ok st)) ∧
    (∀ (f : Nat → Nat) (kf rf sf : Option (List Nat))
        (df : Option (List Nat × List (List Nat))) (st : ImgState) (e : String),
      update_images f kf rf sf df st = .error e →
      update_and_write f kf rf sf df st = f) := by
  have layout_total_size_eq : ∀ ps k r s d : Nat,
      (layout ps k r s d).total_size =
        (1 + pages k ps + pages r ps + pages s ps + pages d ps + 1) * ps :=
    fun _ _ _ _ _ => rfl
  constructor
  · intro st
    refine ⟨fun hcap => ?_, fun hzero => ?_, fun hfit => ?_⟩
    · have h2 := hcap.2
      rw [layout_total_size_eq] at h2
      simp only [finalizeSize]
      rw [if_neg hcap.1, if_pos h2]
    · simp only [finalizeSize, layout_total_size_eq]
      rw [if_pos hzero]
    · have h2 := hfit.2
      rw [layout_total_size_eq] at h2
      simp only [finalizeSize]
      rw [if_neg hfit.1, if_neg (Nat.not_lt.mpr h2)]
  · intro f kf rf sf df st e h
    simp only [update_and_write, h]

/-- Update state of the C6 witness: fixed size 4096, needed total 8192. -/
def c6OverState : ImgState :=
  { size := 4096, header := mkHdr 2048 2048 0 0 2048, kernel := none, ramdisk := none,
    second := none, dtbh := none, dtbBlobs := [], signature := List.replicate 255 0 }

/-- Witness for C6: a concrete over-capacity run fails with CapacityError
and leaves the target file untouched. -/
theorem C6_capacity_enforcement_amended_witness :
    finalizeSize c6OverState = .error "CapacityError" ∧
    update_and_write (fun _ => 0) none none none none c6OverState = (fun _ => 0) := by
  constructor
  · exact (C6_capacity_enforcement_amended.1 c6OverState).1 ⟨by decide, by decide⟩
  · exact C6_capacity_enforcement_amended.2 (fun _ => 0) none none none none c6OverState
      "CapacityError" (by decide)

end C6Proofs

/-- Claim C7: the combined page count used by `extract_second` and the
independently rounded page counts of the layout disagree — there are
page-unaligned kernel/ramdisk sizes where the two second-stage offsets
differ, while they agree whenever both sizes are page multiples. -/
theorem C7_combined_page_count_mismatch :
    (∃ ps k r : Nat, 0 < ps ∧ k % ps ≠ 0 ∧ r % ps ≠ 0 ∧
      extractSecondOffset ps k r ≠ (layout ps k r 0 0).second_off) ∧
    (∀ ps k r : Nat, 0 < ps → k % ps = 0 → r % ps = 0 →
      extractSecondOffset ps k r = (layout ps k r 0 0).second_off) := by
  constructor
  · exact ⟨1024, 100, 100, by decide, by decide, by decide, by decide⟩
  · intro ps k r hps hk hr
    obtain ⟨a, rfl⟩ := Nat.dvd_of_mod_eq_zero hk
    obtain ⟨b, rfl⟩ := Nat.dvd_of_mod_eq_zero hr
    show (1 + (ps * b + ps * a + ps - 1) / ps) * ps =
      (1 + pages (ps * a) ps + pages (ps * b) ps) * ps
    rw [pages_of_dvd ps hps (Nat.mul_mod_right ps a),
      pages_of_dvd ps hps (Nat.mul_mod_right ps b),
      Nat.mul_div_cancel_left a hps, Nat.mul_div_cancel_left b hps]
    have h2 : (b + a) * ps = ps * b + ps * a := by ring
    have h1 : ps * b + ps * a + ps - 1 = (ps - 1) + (b + a) * ps := by omega
    rw [h1, Nat.add_mul_div_right _ _ hps, Nat.div_eq_of_lt (by omega)]
    ring

/-- Witness for C7 (the page-aligned agreement part) at page size 1024,
kernel 2048, ramdisk 4096. -/
theorem C7_combined_page_count_mismatch_witness :
    extractSecondOffset 1024 2048 4096 = (layout 1024 2048 4096 0 0).second_off :=
  C7_combined_page_count_mismatch.2 1024 2048 4096 (by decide) (by decide) (by decide)

section C8Proofs

/-- Section loading with no replacement file named for any section: kernel,
ramdisk and second stage stay unset, but the DTB region is copy-forwarded
whenever the old header's `dtbs_size` is nonzero, with no condition on any
preceding section. -/
theorem loadSections_all_none (f : Nat → Nat) (st : ImgState)
    (hk : st.kernel = none) (hr : st.ramdisk = none) (hs : st.second = none)
    (hd : st.dtbh = none) :
    (loadSections f none none none none st).kernel = none ∧
    (loadSections f none none none none st).ramdisk = none ∧
    (loadSections f none none none none st).second = none ∧
    ((loadSections f none none none none st).dtbh = none ↔ st.header.dtbs_size = 0) := by
  unfold loadSections
  simp only [hk, hr, hs, hd, Option.isSome_none]
  split_ifs with h1 <;> simp_all

/-- Update state of the C8 counterexample: no replacement files, but a
nonzero `dtbs_size` of 32 in the source header. -/
def c8DtbState : ImgState :=
  { size := 0, header := mkHdr 64 64 0 32 64, kernel := none, ramdisk := none,
    second := none, dtbh := none, dtbBlobs := [], signature := List.replicate 255 0 }

/-- Counterexample to C8 as stated: an update run naming no replacement file
still populates the dtbh buffer (copy-forward) because the old header's
`dtbs_size` is nonzero, so not all four section buffers remain unset. -/
theorem C8_counterexample :
    (update_images (fun _ => 0) none none none none c8DtbState).map
      (fun st => st.dtbh.isSome) = .ok true := by decide

/-- Claim C8 amended: in an update run naming no replacement file, the
kernel, ramdisk and second-stage buffers remain unset; the DTB buffer
remains unset exactly when the old header's `dtbs_size` is 0 — the dtbs
copy-forward triggers on a nonzero `dtbs_size` alone, not on a preceding
section having been replaced. -/
theorem C8_loader_absent_amended (f : Nat → Nat) (st0 st : ImgState)
    (hk : st0.kernel = none) (hr : st0.ramdisk = none) (hs : st0.second = none)
    (hd : st0.dtbh = none)
    (hupd : update_images f none none none none st0 = .ok st) :
    st.kernel = none ∧ st.ramdisk = none ∧ st.second = none ∧
      (st.dtbh = none ↔ st0.header.dtbs_size = 0) := by
  unfold update_images at hupd
  by_cases hps0 : st0.header.page_size = 0
  · rw [if_pos hps0] at hupd
    exact absurd hupd (by simp)
  rw [if_neg hps0] at hupd
  obtain ⟨-, hk', hr', hs', hd', -, -⟩ := finalizeSize_ok_fields hupd
  obtain ⟨lk, lr, ls, ld⟩ := loadSections_all_none f st0 hk hr hs hd
  rw [hk', hr', hs', hd']
  exact ⟨lk, lr, ls, ld⟩

/-- Update state of the C8 witness: no replacement files and `dtbs_size`
0, so every buffer stays unset. -/
def c8ZeroState : ImgState :=
  { size := 0, header := mkHdr 64 64 0 0 64, kernel := none, ramdisk := none,
    second := none, dtbh := none, dtbBlobs := [], signature := List.replicate 255 0 }

/-- The state `update_images` produces in the C8 witness run. -/
def c8ZeroResult : ImgState :=
  { size := 256, header := mkHdr 64 64 0 0 64, kernel := none, ramdisk := none,
    second := none, dtbh := none, dtbBlobs := [],
    signature := listWriteAt (List.replicate 255 0) 0 sigMarker }

set_option maxRecDepth 8000 in
/-- Witness for C8: a concrete all-none update run with `dtbs_size = 0`. -/
theorem C8_loader_absent_amended_witness :
    c8ZeroResult.kernel = none ∧ c8ZeroResult.ramdisk = none ∧
      c8ZeroResult.second = none ∧
      (c8ZeroResult.dtbh = none ↔ c8ZeroState.header.dtbs_size = 0) :=
  C8_loader_absent_amended (fun _ => 0) c8ZeroState c8ZeroResult rfl rfl rfl rfl (by decide)

end C8Proofs

section C9Proofs

/-- Counterexample to C9 as stated: for a section whose size is an exact
page multiple the writer emits a full page of zero padding
(`psize - (size % psize) = psize`), not the `(-size) mod psize = 0` bytes
the claim states. -/
theorem C9_counterexample :
    sectionPadLen 2048 2048 = 2048 ∧ (2048 - 2048 % 2048) % 2048 = 0 ∧
      (2048 : Nat) ≠ 0 := by decide

/-- Claim C9 amended: the writer emits the section buffer followed by
exactly `page_size - (size % page_size)` zero bytes; this equals
`(-size) mod page_size` whenever the size is not a page multiple, but a
page-aligned section is followed by a full extra page of padding (which a
later section's explicit seek overwrites). -/
theorem C9_writer_padding_amended (ps size : Nat) (hps : 0 < ps) (hlt : ps < u32mod) :
    sectionPadLen ps size = ps - size % ps ∧
    (size % ps ≠ 0 → sectionPadLen ps size = (ps - size % ps) % ps) ∧
    (size % ps = 0 → sectionPadLen ps size = ps) := by
  have hm : size % ps < ps := Nat.mod_lt _ hps
  have h1 : sectionPadLen ps size = ps - size % ps := by
    unfold sectionPadLen u32sub u32mod
    unfold u32mod at hlt
    omega
  refine ⟨h1, fun hne => ?_, fun heq => ?_⟩
  · rw [h1]
    exact (Nat.mod_eq_of_lt (by omega)).symm
  · rw [h1, heq]
    omega

/-- Witness for C9 at page size 2048 and section size 1000. -/
theorem C9_writer_padding_amended_witness :
    sectionPadLen 2048 1000 = 2048 - 1000 % 2048 ∧
    (1000 % 2048 ≠ 0 → sectionPadLen 2048 1000 = (2048 - 1000 % 2048) % 2048) ∧
    (1000 % 2048 = 0 → sectionPadLen 2048 1000 = 2048) :=
  C9_writer_padding_amended 2048 1000 (by decide) (by decide)

end C9Proofs

section C10Proofs

theorem serializeHdr_length (h : BootImgHdr) : (serializeHdr h).length = hdrSize := by
  simp [serializeHdr, cbytes_length, le32, hdrSize]

theorem replicate_getD (n j : Nat) : (List.replicate n (0 : Nat)).getD j 0 = 0 := by
  rw [List.getD_eq_getElem?_getD, List.getElem?_replicate]
  split <;> rfl

theorem append_getD (l1 l2 : List Nat) (i : Nat) :
    (l1 ++ l2).getD i 0 =
      if i < l1.length then l1.getD i 0 else l2.getD (i - l1.length) 0 := by
  rw [List.getD_eq_getElem?_getD, List.getElem?_append]
  split <;> rw [List.getD_eq_getElem?_getD]

/-- The cursor after the writer's header stage. -/
theorem wHeader_snd (h : BootImgHdr) (fc : Stream') :
    (wHeader h fc).2 = hdrSize + u32sub h.page_size hdrSize := by
  unfold wHeader
  rw [fwrite_snd, fwrite_snd, fseek_snd, serializeHdr_length, List.length_replicate]
  omega

/-- The bytes the header stage puts at offsets below
`hdrSize + padding length`: the serialized header followed by zeros. -/
theorem wHeader_fst (h : BootImgHdr) (fc : Stream') {i : Nat}
    (hi : i < hdrSize + u32sub h.page_size hdrSize) :
    (wHeader h fc).1 i =
      (serializeHdr h ++ List.replicate (u32sub h.page_size hdrSize) 0).getD i 0 := by
  have hslen := serializeHdr_length h
  rw [append_getD, hslen]
  unfold wHeader fwrite fseek writeAt
  simp only [hslen, List.length_replicate]
  by_cases hcase : i < hdrSize
  · rw [if_neg (by omega), if_pos (by constructor <;> omega), if_pos hcase]
    congr 1
  · rw [if_pos (by constructor <;> omega), if_neg hcase, replicate_getD, replicate_getD]

/-- Claim C10: for every page size of at least `sizeof(boot_img_hdr)` = 608
bytes (and below 2^32), the writer's header-page padding length
`page_size - 608` does not wrap, the serialized header is exactly 608
bytes, and the first `page_size` bytes of the output are exactly the 608
header bytes followed by `page_size - 608` zeros; for any page size below
608 the unsigned subtraction wraps to at least `2^32 - 608`, so
`page_size ≥ 608` is a real precondition, stronger than the spec's
`page_size > 0`. -/
theorem C10_header_page_precondition (st : ImgState) (base : Nat → Nat)
    (h608 : hdrSize ≤ st.header.page_size) (hlt : st.header.page_size < u32mod) :
    u32sub st.header.page_size hdrSize = st.header.page_size - hdrSize ∧
    (serializeHdr st.header).length = hdrSize ∧
    (∀ i, i < st.header.page_size →
      write_bootimg st base i =
        (serializeHdr st.header ++
          List.replicate (st.header.page_size - hdrSize) 0).getD i 0) ∧
    (∀ q, q < hdrSize → u32mod - hdrSize ≤ u32sub q hdrSize) := by
  have hsub : u32sub st.header.page_size hdrSize = st.header.page_size - hdrSize := by
    unfold u32sub u32mod hdrSize
    unfold u32mod at hlt
    unfold hdrSize at h608
    omega
  refine ⟨hsub, serializeHdr_length st.header, fun i hi => ?_, fun q hq => ?_⟩
  · have hps : (0 : Nat) < st.header.page_size := by
      unfold hdrSize at h608
      omega
    have hle1 : st.header.page_size ≤
        (1 + pages st.header.kernel_size st.header.page_size) * st.header.page_size :=
      Nat.le_mul_of_pos_left _ (by omega)
    have hle2 : st.header.page_size ≤
        (1 + pages st.header.kernel_size st.header.page_size +
          pages st.header.ramdisk_size st.header.page_size) * st.header.page_size :=
      Nat.le_mul_of_pos_left _ (by omega)
    have hle3 : st.header.page_size ≤
        (1 + pages st.header.kernel_size st.header.page_size +
          pages st.header.ramdisk_size st.header.page_size +
          pages st.header.second_size st.header.page_size) * st.header.page_size :=
      Nat.le_mul_of_pos_left _ (by omega)
    have hle4 : st.header.page_size ≤
        (1 + pages st.header.kernel_size st.header.page_size +
          pages st.header.ramdisk_size st.header.page_size +
          pages st.header.second_size st.header.page_size +
          pages st.header.dtbs_size st.header.page_size) * st.header.page_size :=
      Nat.le_mul_of_pos_left _ (by omega)
    have hcur : i < (wHeader st.header (base, 0)).2 := by
      rw [wHeader_snd, hsub]
      omega
    unfold write_bootimg
    rw [wSig_fst_lt _ _ _ (by omega), wDtb_fst_lt _ _ _ _ (by omega),
      wSecond_fst_lt _ _ _ (by omega), wRamdisk_fst_lt _ _ _ (by omega),
      wKernel_fst_lt _ _ _ hcur, wHeader_fst _ _ (by rw [hsub]; omega), hsub]
  · unfold u32sub u32mod hdrSize
    unfold hdrSize at hq
    omega

/-- Image state of the C10 witness: page size 1024. -/
def c10State : ImgState :=
  { size := 0, header := mkHdr 100 100 0 0 1024, kernel := none, ramdisk := none,
    second := none, dtbh := none, dtbBlobs := [], signature := List.replicate 255 0 }

/-- Witness for C10: the byte at offset 700 (inside the header padding) of a
concrete written image. -/
theorem C10_header_page_precondition_witness :
    write_bootimg c10State witnessFile 700 =
      (serializeHdr c10State.header ++
        List.replicate (c10State.header.page_size - hdrSize) 0).getD 700 0 :=
  (C10_header_page_precondition c10State witnessFile (by decide) (by decide)).2.2.1 700
    (by decide)

end C10Proofs

end Abootimg
